import Mathlib

/-!
Verification of the two YAML transformation scripts of the repository
(`scripts/my-services/convert_to_heimdall.py` and
`scripts/my-services/convert_to_homer.py`).

The parsed YAML documents that the Python code manipulates are modelled by
the inductive type `Value`; Python dictionaries become association lists
(`Dict`), with `dictGet?` modelling `d[k]` / `d.get(k)` and `dictGetD`
modelling `d.get(k, default)`.  Python truthiness is `truthy`.  A Python
runtime error (`KeyError` on a missing required field, `AttributeError`
when `.endswith` is called on a non-string) is modelled by `Option`:
`none` means the function raises.
-/

namespace MyServices

/-- A parsed YAML/JSON value, as produced by `yaml.safe_load`. -/
inductive Value where
  | null : Value
  | bool : Bool → Value
  | str : String → Value
  | int : Int → Value
  | list : List Value → Value
  | map : List (String × Value) → Value

/-- A Python dictionary with string keys, in insertion order. -/
abbrev Dict := List (String × Value)

/-- Python `d.get(k)` / the lookup part of `d[k]`: the value bound to `k`,
if any. -/
def dictGet? (d : Dict) (k : String) : Option Value :=
  match d.find? (fun p => p.1 == k) with
  | some p => some p.2
  | none => none

/-- Python `d.get(k, v)`: the value bound to `k`, or the default `v` when
the key is absent. -/
def dictGetD (d : Dict) (k : String) (v : Value) : Value :=
  (dictGet? d k).getD v

/-- Python `k in d`: whether the key occurs in the dictionary. -/
def hasKey (d : Dict) (k : String) : Bool :=
  (dictGet? d k).isSome

/-- Python truthiness of a parsed YAML value (`if x:`). -/
def truthy : Value → Bool
  | .null => false
  | .bool b => b
  | .str s => !(s == "")
  | .int n => !(n == 0)
  | .list xs => !xs.isEmpty
  | .map kvs => !kvs.isEmpty

/-- The underlying string, when the value is a string; `none` models the
`AttributeError` raised when a string method is called on anything else. -/
def Value.asStr? : Value → Option String
  | .str s => some s
  | _ => none

/-- The underlying list, when the value is a sequence; `none` models the
`TypeError` raised when Python iterates over a non-sequence. -/
def Value.asList? : Value → Option (List Value)
  | .list xs => some xs
  | _ => none

/-- The underlying dictionary, when the value is a mapping; `none` models
the `AttributeError` raised when `.get` is called on a non-mapping. -/
def Value.asMap? : Value → Option Dict
  | .map d => some d
  | _ => none

/-- Python `s.endswith(suf)`, on the character sequences of the strings. -/
def pyEndsWith (s suf : String) : Bool :=
  suf.data.isSuffixOf s.data

/-- The loop of both converters: transform each element left to right,
aborting at the first element on which the body raises (returns `none`).
Models `for service in ...: ... append(...)` together with the fact that
an exception in the body propagates out of the whole function. -/
def mapOption (f : α → Option β) : List α → Option (List β)
  | [] => some []
  | x :: xs =>
    (f x).bind fun y =>
    (mapOption f xs).bind fun ys =>
    some (y :: ys)

/-- Lines 59–65 of `convert_to_heimdall.py`: the health-check URL derived
for one service record.  The outer `Option` is the error monad (the code
raises if `healthcheck` is truthy but `url` is missing or not a string);
the inner `Option String` is the Python value (`None` or a string). -/
def healthcheckUrlOf (service : Dict) : Option (Option String) :=
  if truthy (dictGetD service "healthcheck" (Value.bool false)) then
    match dictGet? service "url" with
    | none => none
    | some v =>
      match v.asStr? with
      | none => none
      | some base_url =>
        if pyEndsWith base_url "/" then some (some (base_url ++ "health"))
        else some (some (base_url ++ "/health"))
  else
    some none

/-- Lines 67–80 of `convert_to_heimdall.py`: the `heimdall_service`
dictionary literal, given the already-extracted required values. -/
def heimdallRecord (service : Dict) (hcUrl : Option String)
    (name description url host category : Value) : Dict :=
  [("name", name),
   ("description", description),
   ("url", url),
   ("host", host),
   ("category", category),
   ("labels", dictGetD service "label" (Value.list [])),
   ("aliases", dictGetD service "alias-name" (Value.list [])),
   ("external", dictGetD service "external" (Value.bool false)),
   ("healthcheck", Value.map
      [("enabled", dictGetD service "healthcheck" (Value.bool false)),
       ("url", match hcUrl with
               | some u => Value.str u
               | none => Value.null)])]

/-- Lines 59–83 of `convert_to_heimdall.py`: the output record built for
one service record (the body of the loop in `convert_to_heimdall_format`).
`none` models a raised `KeyError`/`AttributeError`. -/
def heimdallService (service : Dict) : Option Dict :=
  (healthcheckUrlOf service).bind fun hcUrl =>
  (dictGet? service "name").bind fun name =>
  (dictGet? service "description").bind fun description =>
  (dictGet? service "url").bind fun url =>
  (dictGet? service "host").bind fun host =>
  (dictGet? service "category").bind fun category =>
  let base := heimdallRecord service hcUrl name description url host category
  if truthy (dictGetD service "image" Value.null) then
    some (base ++ [("icon", dictGetD service "image" Value.null)])
  else
    some base

/-- `convert_to_heimdall_format` of `convert_to_heimdall.py`. -/
def convert_to_heimdall_format (services_data : Dict) : Option Dict :=
  ((dictGetD services_data "services" (Value.list [])).asList?).bind fun services =>
  (mapOption (fun s => s.asMap?.bind heimdallService) services).bind fun converted =>
  some [("version", Value.str "1.0"),
        ("name", Value.str "My Services Dashboard"),
        ("description", Value.str "オンプレミスサービス一覧"),
        ("services", Value.list (converted.map Value.map))]

/-- Lines 49–62 of `convert_to_homer.py`: the Homer item built for one
service record (the body of the loop in `to_homer_items`). -/
def homerItem (service : Dict) : Option Dict :=
  let subtitle := dictGetD service "description" Value.null
  let icon := dictGetD service "image" Value.null
  (dictGet? service "name").bind fun name =>
  (dictGet? service "url").bind fun url =>
  let item : Dict := [("name", name), ("url", url)]
  let item := if truthy subtitle then item ++ [("subtitle", subtitle)] else item
  let item := if truthy icon then item ++ [("logo", icon)] else item
  some (item ++ [("_target", Value.str "self")])

/-- `to_homer_items` of `convert_to_homer.py`. -/
def to_homer_items (services : List Value) : Option (List Dict) :=
  mapOption (fun s => s.asMap?.bind homerItem) services

/-- `convert_to_homer_config` of `convert_to_homer.py`. -/
def convert_to_homer_config (services_data : Dict) : Option Dict :=
  ((dictGetD services_data "services" (Value.list [])).asList?).bind fun services_list =>
  (to_homer_items services_list).bind fun items =>
  some [("title", Value.str "My Services"),
        ("subtitle", Value.str "オンプレミスサービス一覧"),
        ("theme", Value.str "default"),
        ("message", Value.str ""),
        ("links", Value.list []),
        ("services", Value.list
          [Value.map
            [("name", Value.str "Services"),
             ("icon", Value.str "fas fa-th"),
             ("items", Value.list (items.map Value.map))]])]

/-- The observable outcome of one run of a converter's `main` after the
input files have been loaded and parsed: the process exit code (`none`
models an uncaught exception) and the list of attempted writes, each
carrying the full configuration handed to the writer. -/
structure RunResult where
  exitCode : Option Nat
  writes : List Dict

/-- Lines 155–178 of `convert_to_heimdall.py`: the part of `main` after
loading, with the two CLI flags and the outcome of schema validation
(`validationOk`, the return value of `validate_data`) and of the write
(`writeOk`) as parameters.  Validation runs only when `--no-validate` is
absent; a failed validation exits 1 before converting; `--validate-only`
exits 0 before converting; otherwise the converted document is written
exactly once (a write failure exits 1 after the single attempt). -/
def heimdallMain (noValidate validateOnly validationOk writeOk : Bool)
    (services_data : Dict) : RunResult :=
  if !noValidate && !validationOk then ⟨some 1, []⟩
  else if validateOnly then ⟨some 0, []⟩
  else
    match convert_to_heimdall_format services_data with
    | none => ⟨none, []⟩
    | some cfg => ⟨some (if writeOk then 0 else 1), [cfg]⟩

/-- Lines 148–168 of `convert_to_homer.py`: same control flow as
`heimdallMain`, writing the Homer configuration. -/
def homerMain (noValidate validateOnly validationOk writeOk : Bool)
    (services_data : Dict) : RunResult :=
  if !noValidate && !validationOk then ⟨some 1, []⟩
  else if validateOnly then ⟨some 0, []⟩
  else
    match convert_to_homer_config services_data with
    | none => ⟨none, []⟩
    | some cfg => ⟨some (if writeOk then 0 else 1), [cfg]⟩

/-- Modelled from the spec: the JSON Schema file
`scripts/my-services/services.schema.json` is not under `src/`, so the
shape it guarantees is taken from spec §3, which requires each
ServiceRecord to carry string fields `name`, `description`, `url`,
`host` and `category`. -/
def validServiceRecord (d : Dict) : Bool :=
  ["name", "description", "url", "host", "category"].all fun k =>
    match dictGet? d k with
    | some (Value.str _) => true
    | _ => false

/-- Modelled from the spec: spec §3 describes a ServicesDocument as a
top-level mapping with key `services` bound to a sequence of
ServiceRecords (mappings satisfying `validServiceRecord`). -/
def validServicesDocument (doc : Dict) : Bool :=
  match dictGet? doc "services" with
  | some (Value.list xs) =>
      xs.all fun v =>
        match v with
        | Value.map d => validServiceRecord d
        | _ => false
  | _ => false

/-- The `items` list of the single Homer group, extracted from a produced
Homer configuration. -/
def homerGroupItems (cfg : Dict) : Option (List Value) :=
  ((dictGet? cfg "services").bind Value.asList?).bind fun groups =>
  match groups with
  | [g] =>
    g.asMap?.bind fun gd =>
    (dictGet? gd "items").bind Value.asList?
  | _ => none

/-! ### Helper lemmas -/

lemma suffix_append_right_iff {α} (a b c : List α) :
    a ++ c <:+ b ++ c ↔ a <:+ b := by
  constructor
  · rintro ⟨t, h⟩
    rw [← List.append_assoc] at h
    exact ⟨t, List.append_cancel_right h⟩
  · rintro ⟨t, rfl⟩
    exact ⟨t, by simp⟩

lemma pyEndsWith_iff (s t : String) :
    pyEndsWith s t = true ↔ t.data <:+ s.data := by
  simp [pyEndsWith, List.isSuffixOf_iff_suffix]

lemma pyEndsWith_append_append (s t u : String) :
    pyEndsWith (s ++ u) (t ++ u) = pyEndsWith s t := by
  rcases h : pyEndsWith s t with _ | _
  · rw [Bool.eq_false_iff]
    intro hcon
    rw [pyEndsWith_iff, String.data_append, String.data_append,
      suffix_append_right_iff, ← pyEndsWith_iff, h] at hcon
    cases hcon
  · rw [pyEndsWith_iff, String.data_append, String.data_append,
      suffix_append_right_iff, ← pyEndsWith_iff]
    exact h

/-- C1 (counterexample to the claim as stated): the claim is false on the code: for the record
with `healthcheck: true` and `url: "http://a//"`, the derived health-check
URL is `"http://a//health"`, which does contain a doubled slash
immediately before `health`. -/
theorem heimdall_healthcheck_doubled_slash_cex :
    healthcheckUrlOf [("healthcheck", Value.bool true), ("url", Value.str "http://a//")]
      = some (some "http://a//health")
    ∧ pyEndsWith "http://a//health" "//health" = true :=
  ⟨rfl, rfl⟩

lemma heimdallService_some_iff {service out : Dict} :
    heimdallService service = some out ↔
    ∃ hcUrl name description url host category,
      healthcheckUrlOf service = some hcUrl ∧
      dictGet? service "name" = some name ∧
      dictGet? service "description" = some description ∧
      dictGet? service "url" = some url ∧
      dictGet? service "host" = some host ∧
      dictGet? service "category" = some category ∧
      out = (if truthy (dictGetD service "image" Value.null) then
               heimdallRecord service hcUrl name description url host category
                 ++ [("icon", dictGetD service "image" Value.null)]
             else heimdallRecord service hcUrl name description url host category) := by
  simp only [heimdallService, Option.bind_eq_some]
  constructor
  · rintro ⟨hcUrl, h1, name, h2, description, h3, url, h4, host, h5, category, h6, h7⟩
    refine ⟨hcUrl, name, description, url, host, category, h1, h2, h3, h4, h5, h6, ?_⟩
    split at h7 <;> simp_all
  · rintro ⟨hcUrl, name, description, url, host, category, h1, h2, h3, h4, h5, h6, rfl⟩
    refine ⟨hcUrl, h1, name, h2, description, h3, url, h4, host, h5, category, h6, ?_⟩
    split <;> rfl

lemma homerItem_some_iff {service item : Dict} :
    homerItem service = some item ↔
    ∃ name url,
      dictGet? service "name" = some name ∧
      dictGet? service "url" = some url ∧
      item =
        ((if truthy (dictGetD service "image" Value.null) then
            (if truthy (dictGetD service "description" Value.null) then
               [("name", name), ("url", url),
                ("subtitle", dictGetD service "description" Value.null)]
             else [("name", name), ("url", url)])
              ++ [("logo", dictGetD service "image" Value.null)]
          else
            (if truthy (dictGetD service "description" Value.null) then
               [("name", name), ("url", url),
                ("subtitle", dictGetD service "description" Value.null)]
             else [("name", name), ("url", url)]))
          ++ [("_target", Value.str "self")]) := by
  simp only [homerItem, Option.bind_eq_some]
  constructor
  · rintro ⟨name, h1, url, h2, h3⟩
    refine ⟨name, url, h1, h2, ?_⟩
    rcases hd : truthy (dictGetD service "description" Value.null) with _ | _ <;>
      rcases hi : truthy (dictGetD service "image" Value.null) with _ | _ <;>
      simp_all
  · rintro ⟨name, url, h1, h2, rfl⟩
    refine ⟨name, h1, url, h2, ?_⟩
    rcases hd : truthy (dictGetD service "description" Value.null) with _ | _ <;>
      rcases hi : truthy (dictGetD service "image" Value.null) with _ | _ <;>
      simp_all

lemma dictGet?_append_of_some {d1 : Dict} (d2 : Dict) {k : String} {v : Value}
    (h : dictGet? d1 k = some v) : dictGet? (d1 ++ d2) k = some v := by
  simp only [dictGet?] at *
  cases hf : d1.find? (fun p => p.1 == k) with
  | none => rw [hf] at h; cases h
  | some p =>
    rw [hf] at h
    rw [List.find?_append, hf]
    exact h

/-- A standard example record (the one from spec §8), used by the
witnesses. -/
def exampleService : Dict :=
  [("name", Value.str "Wiki"), ("description", Value.str "Docs"),
   ("url", Value.str "http://wiki.local"), ("host", Value.str "wiki.local"),
   ("category", Value.str "Tools"), ("healthcheck", Value.bool true)]

/-- C1 (amended): for a record with `healthcheck: true` and a string
`url`, the derived health-check URL appends `"health"` when `url` ends
with `/` and `"/health"` otherwise; the result always ends in `/health`,
and it has a doubled slash immediately before `health` exactly when `url`
itself already ends in `//`; for a record whose `healthcheck` key is
absent or bound to `false`, the derived URL is `None`. -/
theorem heimdall_healthcheck_url_correct (service : Dict) (url : String)
    (hhc : dictGet? service "healthcheck" = some (Value.bool true))
    (hurl : dictGet? service "url" = some (Value.str url)) :
    healthcheckUrlOf service
      = some (some (if pyEndsWith url "/" then url ++ "health" else url ++ "/health"))
    ∧ pyEndsWith (if pyEndsWith url "/" then url ++ "health" else url ++ "/health") "/health" = true
    ∧ pyEndsWith (if pyEndsWith url "/" then url ++ "health" else url ++ "/health") "//health"
      = pyEndsWith url "//"
    ∧ ∀ s : Dict,
        (dictGet? s "healthcheck" = none ∨ dictGet? s "healthcheck" = some (Value.bool false)) →
        healthcheckUrlOf s = some none := by
  refine ⟨?_, ?_, ?_, ?_⟩
  · simp [healthcheckUrlOf, dictGetD, hhc, hurl, truthy, Value.asStr?]
    split <;> rfl
  · rcases h : pyEndsWith url "/" with _ | _
    · simp only [h, Bool.false_eq_true, if_false]
      rw [pyEndsWith_iff, String.data_append]
      exact List.suffix_append _ _
    · simp only [h, if_true]
      rw [pyEndsWith_iff] at h ⊢
      rw [String.data_append]
      obtain ⟨t, ht⟩ := h
      refine ⟨t, ?_⟩
      rw [← ht]
      have e : ("/health").data = ("/").data ++ ("health").data := rfl
      rw [e, ← List.append_assoc]
  · rcases h : pyEndsWith url "/" with _ | _
    · simp only [h, Bool.false_eq_true, if_false]
      have e : ("//health" : String) = "/" ++ "/health" := rfl
      rw [e, pyEndsWith_append_append, h]
      rcases h2 : pyEndsWith url "//" with _ | _
      · rfl
      · exfalso
        rw [pyEndsWith_iff] at h2
        have h3 : ("/").data <:+ ("//").data := ⟨("/").data, rfl⟩
        have h4 := h3.trans h2
        rw [← pyEndsWith_iff, h] at h4
        cases h4
    · simp only [h, if_true]
      have e : ("//health" : String) = "//" ++ "health" := rfl
      rw [e, pyEndsWith_append_append]
  · rintro s (h | h) <;> simp [healthcheckUrlOf, dictGetD, h, truthy]

/-- Witness for `heimdall_healthcheck_url_correct`: the record with
`healthcheck: true` and `url: "http://a"` satisfies its hypotheses, and
the derived URL is as stated. -/
theorem heimdall_healthcheck_url_correct_witness :
    healthcheckUrlOf [("healthcheck", Value.bool true), ("url", Value.str "http://a")]
      = some (some (if pyEndsWith "http://a" "/" then "http://a" ++ "health"
                    else "http://a" ++ "/health")) :=
  (heimdall_healthcheck_url_correct
    [("healthcheck", Value.bool true), ("url", Value.str "http://a")] "http://a" rfl rfl).1


/-- C10: the empty-sequence defaults apply only when the key is absent:
a record binding `label` (or `alias-name`) to an explicit null produces
Heimdall `labels` (or `aliases`) equal to null, not the empty sequence. -/
theorem heimdall_null_overrides (service out : Dict)
    (hout : heimdallService service = some out) :
    (dictGet? service "label" = some Value.null →
      dictGet? out "labels" = some Value.null)
    ∧ (dictGet? service "alias-name" = some Value.null →
      dictGet? out "aliases" = some Value.null) := by
  rw [heimdallService_some_iff] at hout
  obtain ⟨hcUrl, name, description, url, host, category, -, -, -, -, -, -, rfl⟩ := hout
  constructor
  · intro hl
    have hrl : dictGet? (heimdallRecord service hcUrl name description url host category)
        "labels" = some (dictGetD service "label" (Value.list [])) := rfl
    have el : dictGetD service "label" (Value.list []) = Value.null := by
      rw [dictGetD, hl]; rfl
    rw [el] at hrl
    split
    · exact dictGet?_append_of_some _ hrl
    · exact hrl
  · intro ha
    have hra : dictGet? (heimdallRecord service hcUrl name description url host category)
        "aliases" = some (dictGetD service "alias-name" (Value.list [])) := rfl
    have ea : dictGetD service "alias-name" (Value.list []) = Value.null := by
      rw [dictGetD, ha]; rfl
    rw [ea] at hra
    split
    · exact dictGet?_append_of_some _ hra
    · exact hra

def exampleServiceNulls : Dict :=
  [("name", Value.str "Wiki"), ("description", Value.str "Docs"),
   ("url", Value.str "http://wiki.local"), ("host", Value.str "wiki.local"),
   ("category", Value.str "Tools"), ("label", Value.null), ("alias-name", Value.null)]

theorem heimdall_null_overrides_witness :
    dictGet? (heimdallRecord exampleServiceNulls none (Value.str "Wiki") (Value.str "Docs")
      (Value.str "http://wiki.local") (Value.str "wiki.local") (Value.str "Tools"))
      "labels" = some Value.null :=
  (heimdall_null_overrides exampleServiceNulls _ rfl).1 rfl

lemma isStrKey_of (d : Dict) (k : String)
    (h : (match dictGet? d k with
          | some (Value.str _) => true
          | _ => false) = true) :
    ∃ s, dictGet? d k = some (Value.str s) := by
  cases hv : dictGet? d k with
  | none => rw [hv] at h; cases h
  | some v =>
    rw [hv] at h
    cases v with
    | null => cases h
    | bool b => cases h
    | str s => exact ⟨s, rfl⟩
    | int n => cases h
    | list xs => cases h
    | map m => cases h

lemma healthcheckUrlOf_isSome {d : Dict} {s : String}
    (hu : dictGet? d "url" = some (Value.str s)) :
    ∃ r, healthcheckUrlOf d = some r := by
  rw [healthcheckUrlOf]
  split
  · rw [hu]
    simp only [Value.asStr?]
    split <;> exact ⟨_, rfl⟩
  · exact ⟨none, rfl⟩

lemma heimdallService_total {d : Dict} (h : validServiceRecord d = true) :
    ∃ out, heimdallService d = some out := by
  simp only [validServiceRecord, List.all_cons, List.all_nil, Bool.and_true,
    Bool.and_eq_true] at h
  obtain ⟨hn, hd2, hu, hh, hc⟩ := h
  obtain ⟨sn, hn⟩ := isStrKey_of d "name" hn
  obtain ⟨sd, hd2⟩ := isStrKey_of d "description" hd2
  obtain ⟨su, hu⟩ := isStrKey_of d "url" hu
  obtain ⟨sh, hh⟩ := isStrKey_of d "host" hh
  obtain ⟨sc, hc⟩ := isStrKey_of d "category" hc
  obtain ⟨r, hr⟩ := healthcheckUrlOf_isSome hu
  exact ⟨_, heimdallService_some_iff.mpr
    ⟨r, _, _, _, _, _, hr, hn, hd2, hu, hh, hc, rfl⟩⟩

lemma homerItem_total {d : Dict} (h : validServiceRecord d = true) :
    ∃ item, homerItem d = some item := by
  simp only [validServiceRecord, List.all_cons, List.all_nil, Bool.and_true,
    Bool.and_eq_true] at h
  obtain ⟨hn, hd2, hu, hh, hc⟩ := h
  obtain ⟨sn, hn⟩ := isStrKey_of d "name" hn
  obtain ⟨su, hu⟩ := isStrKey_of d "url" hu
  exact ⟨_, homerItem_some_iff.mpr ⟨_, _, hn, hu, rfl⟩⟩

lemma mapOption_total {α β : Type} {f : α → Option β} {l : List α}
    (h : ∀ x ∈ l, ∃ y, f x = some y) : ∃ ys, mapOption f l = some ys := by
  induction l with
  | nil => exact ⟨[], rfl⟩
  | cons x xs ih =>
    obtain ⟨y, hy⟩ := h x (by simp)
    obtain ⟨ys, hys⟩ := ih (fun a ha => h a (by simp [ha]))
    exact ⟨y :: ys, by simp [mapOption, hy, hys]⟩

lemma mapOption_length {α β : Type} {f : α → Option β} {l : List α} {ys : List β}
    (h : mapOption f l = some ys) : ys.length = l.length := by
  induction l generalizing ys with
  | nil =>
    simp only [mapOption] at h
    cases h
    rfl
  | cons x xs ih =>
    simp only [mapOption, Option.bind_eq_some] at h
    obtain ⟨y, hy, ys', hys', heq⟩ := h
    cases heq
    simp [ih hys']

lemma mapOption_mem {α β : Type} {f : α → Option β} {l : List α} {ys : List β}
    (h : mapOption f l = some ys) : ∀ y ∈ ys, ∃ x ∈ l, f x = some y := by
  induction l generalizing ys with
  | nil =>
    simp only [mapOption] at h
    cases h
    simp
  | cons x xs ih =>
    simp only [mapOption, Option.bind_eq_some] at h
    obtain ⟨y, hy, ys', hys', heq⟩ := h
    cases heq
    intro z hz
    rcases List.mem_cons.mp hz with rfl | hz
    · exact ⟨x, by simp, hy⟩
    · obtain ⟨x', hx', hfx'⟩ := ih hys' z hz
      exact ⟨x', by simp [hx'], hfx'⟩


lemma convert_to_heimdall_format_eq {doc : Dict} {xs : List Value} {converted : List Dict}
    (heq : dictGet? doc "services" = some (Value.list xs))
    (hconv : mapOption (fun s => s.asMap?.bind heimdallService) xs = some converted) :
    convert_to_heimdall_format doc
      = some [("version", Value.str "1.0"),
              ("name", Value.str "My Services Dashboard"),
              ("description", Value.str "オンプレミスサービス一覧"),
              ("services", Value.list (converted.map Value.map))] := by
  simp [convert_to_heimdall_format, dictGetD, heq, Value.asList?, hconv]

lemma convert_to_homer_config_eq {doc : Dict} {xs : List Value} {items : List Dict}
    (heq : dictGet? doc "services" = some (Value.list xs))
    (hitems : to_homer_items xs = some items) :
    convert_to_homer_config doc
      = some [("title", Value.str "My Services"),
              ("subtitle", Value.str "オンプレミスサービス一覧"),
              ("theme", Value.str "default"),
              ("message", Value.str ""),
              ("links", Value.list []),
              ("services", Value.list
                [Value.map
                  [("name", Value.str "Services"),
                   ("icon", Value.str "fas fa-th"),
                   ("items", Value.list (items.map Value.map))]])] := by
  simp [convert_to_homer_config, dictGetD, heq, Value.asList?, hitems]

lemma convert_to_heimdall_format_no_services {doc : Dict}
    (heq : dictGet? doc "services" = none) :
    convert_to_heimdall_format doc
      = some [("version", Value.str "1.0"),
              ("name", Value.str "My Services Dashboard"),
              ("description", Value.str "オンプレミスサービス一覧"),
              ("services", Value.list [])] := by
  simp [convert_to_heimdall_format, dictGetD, heq, Value.asList?, mapOption]

lemma convert_to_homer_config_no_services {doc : Dict}
    (heq : dictGet? doc "services" = none) :
    convert_to_homer_config doc
      = some [("title", Value.str "My Services"),
              ("subtitle", Value.str "オンプレミスサービス一覧"),
              ("theme", Value.str "default"),
              ("message", Value.str ""),
              ("links", Value.list []),
              ("services", Value.list
                [Value.map
                  [("name", Value.str "Services"),
                   ("icon", Value.str "fas fa-th"),
                   ("items", Value.list [])]])] := by
  simp [convert_to_homer_config, dictGetD, heq, Value.asList?, to_homer_items, mapOption]

lemma valid_elem {v : Value}
    (h : (match v with | Value.map d => validServiceRecord d | _ => false) = true) :
    ∃ d, v = Value.map d ∧ validServiceRecord d = true := by
  cases v with
  | map d => exact ⟨d, rfl, h⟩
  | null => cases h
  | bool b => cases h
  | str s => cases h
  | int n => cases h
  | list l => cases h

lemma valid_doc_destruct {doc : Dict} (hvalid : validServicesDocument doc = true) :
    ∃ xs converted items,
      dictGet? doc "services" = some (Value.list xs)
      ∧ mapOption (fun s => s.asMap?.bind heimdallService) xs = some converted
      ∧ to_homer_items xs = some items
      ∧ converted.length = xs.length ∧ items.length = xs.length := by
  rcases hv : dictGet? doc "services" with _ | v
  · rw [validServicesDocument, hv] at hvalid
    exact absurd hvalid Bool.false_ne_true
  · cases v with
    | list xs =>
      rw [validServicesDocument, hv] at hvalid
      have hall := List.all_eq_true.mp hvalid
      have h1 : ∀ x ∈ xs, ∃ y, x.asMap?.bind heimdallService = some y := by
        intro x hx
        obtain ⟨d, rfl, hd⟩ := valid_elem (hall x hx)
        obtain ⟨out, ho⟩ := heimdallService_total hd
        exact ⟨out, by simp [Value.asMap?, ho]⟩
      have h2 : ∀ x ∈ xs, ∃ y, x.asMap?.bind homerItem = some y := by
        intro x hx
        obtain ⟨d, rfl, hd⟩ := valid_elem (hall x hx)
        obtain ⟨item, ho⟩ := homerItem_total hd
        exact ⟨item, by simp [Value.asMap?, ho]⟩
      obtain ⟨converted, hconv⟩ := mapOption_total h1
      obtain ⟨items, hitems⟩ := mapOption_total h2
      exact ⟨xs, converted, items, rfl, hconv, hitems,
        mapOption_length hconv, mapOption_length hitems⟩
    | null => rw [validServicesDocument, hv] at hvalid; exact absurd hvalid Bool.false_ne_true
    | bool b => rw [validServicesDocument, hv] at hvalid; exact absurd hvalid Bool.false_ne_true
    | str s => rw [validServicesDocument, hv] at hvalid; exact absurd hvalid Bool.false_ne_true
    | int n => rw [validServicesDocument, hv] at hvalid; exact absurd hvalid Bool.false_ne_true
    | map m => rw [validServicesDocument, hv] at hvalid; exact absurd hvalid Bool.false_ne_true


/-- An input document holding the single example record, used by the
witnesses. -/
def exampleDoc : Dict := [("services", Value.list [Value.map exampleService])]

/-- C4: for a valid ServicesDocument, the Heimdall transformer succeeds
and its `services` sequence has the length of the input `services`
sequence, and the Homer transformer succeeds with its single group's
`items` sequence of that same length. -/
theorem services_length_preserved (doc : Dict) (ss : List Value)
    (hss : dictGet? doc "services" = some (Value.list ss))
    (hvalid : validServicesDocument doc = true) :
    (∃ cfg out, convert_to_heimdall_format doc = some cfg
      ∧ dictGet? cfg "services" = some (Value.list out) ∧ out.length = ss.length)
    ∧ (∃ cfg items, convert_to_homer_config doc = some cfg
      ∧ homerGroupItems cfg = some items ∧ items.length = ss.length) := by
  obtain ⟨xs, converted, items, hv, hconv, hitems, hlen1, hlen2⟩ := valid_doc_destruct hvalid
  rw [hss] at hv
  injection hv with hv
  injection hv with hv
  subst hv
  refine ⟨⟨_, _, convert_to_heimdall_format_eq hss hconv, rfl, ?_⟩,
          ⟨_, _, convert_to_homer_config_eq hss hitems, rfl, ?_⟩⟩
  · simp [hlen1]
  · simp [hlen2]

theorem services_length_preserved_witness :
    (∃ cfg out, convert_to_heimdall_format exampleDoc = some cfg
      ∧ dictGet? cfg "services" = some (Value.list out)
      ∧ out.length = [Value.map exampleService].length)
    ∧ (∃ cfg items, convert_to_homer_config exampleDoc = some cfg
      ∧ homerGroupItems cfg = some items
      ∧ items.length = [Value.map exampleService].length) :=
  services_length_preserved exampleDoc [Value.map exampleService] rfl rfl

/-- C8: on a document in which every service record carries the
schema-required string fields `name`, `description`, `url`, `host` and
`category`, both transformers succeed totally: the missing-required-field
error branch is unreachable. -/
theorem transformers_total_on_valid (doc : Dict)
    (hvalid : validServicesDocument doc = true) :
    (∃ cfg, convert_to_heimdall_format doc = some cfg)
    ∧ (∃ cfg, convert_to_homer_config doc = some cfg) := by
  obtain ⟨xs, converted, items, hv, hconv, hitems, -, -⟩ := valid_doc_destruct hvalid
  exact ⟨⟨_, convert_to_heimdall_format_eq hv hconv⟩,
         ⟨_, convert_to_homer_config_eq hv hitems⟩⟩

theorem transformers_total_on_valid_witness :
    (∃ cfg, convert_to_heimdall_format exampleDoc = some cfg)
    ∧ (∃ cfg, convert_to_homer_config exampleDoc = some cfg) :=
  transformers_total_on_valid exampleDoc rfl

/-- C9: a document without a top-level `services` key is transformed
successfully by both converters: Heimdall gets an empty `services`
sequence and Homer an empty `items` sequence in its single group. -/
theorem missing_services_key_ok (doc : Dict)
    (h : dictGet? doc "services" = none) :
    (∃ cfg, convert_to_heimdall_format doc = some cfg
       ∧ dictGet? cfg "services" = some (Value.list []))
    ∧ (∃ cfg, convert_to_homer_config doc = some cfg
       ∧ homerGroupItems cfg = some []) :=
  ⟨⟨_, convert_to_heimdall_format_no_services h, rfl⟩,
   ⟨_, convert_to_homer_config_no_services h, rfl⟩⟩

theorem missing_services_key_ok_witness :
    (∃ cfg, convert_to_heimdall_format [] = some cfg
       ∧ dictGet? cfg "services" = some (Value.list []))
    ∧ (∃ cfg, convert_to_homer_config [] = some cfg
       ∧ homerGroupItems cfg = some []) :=
  missing_services_key_ok [] rfl


/-- C2: a Heimdall output record has an `icon` key, and a Homer item has a
`logo` key, exactly when the source record's `image` field is present and
truthy; otherwise the key is absent from the output dictionary. -/
theorem heimdall_icon_homer_logo_iff_image (service : Dict) :
    (∀ out, heimdallService service = some out →
      hasKey out "icon" = truthy (dictGetD service "image" Value.null))
    ∧ (∀ item, homerItem service = some item →
      hasKey item "logo" = truthy (dictGetD service "image" Value.null)) := by
  constructor
  · intro out h
    rw [heimdallService_some_iff] at h
    obtain ⟨hcUrl, name, description, url, host, category, -, -, -, -, -, -, rfl⟩ := h
    rcases hi : truthy (dictGetD service "image" Value.null) with _ | _ <;>
      simp only [hi, Bool.false_eq_true, if_false, if_true] <;> rfl
  · intro item h
    rw [homerItem_some_iff] at h
    obtain ⟨name, url, -, -, rfl⟩ := h
    rcases hi : truthy (dictGetD service "image" Value.null) with _ | _ <;>
      rcases hd : truthy (dictGetD service "description" Value.null) with _ | _ <;>
      simp only [hi, hd, Bool.false_eq_true, if_false, if_true] <;> rfl

theorem heimdall_icon_homer_logo_iff_image_witness :
    hasKey (heimdallRecord exampleService (some "http://wiki.local/health")
      (Value.str "Wiki") (Value.str "Docs") (Value.str "http://wiki.local")
      (Value.str "wiki.local") (Value.str "Tools")) "icon"
      = truthy (dictGetD exampleService "image" Value.null) :=
  (heimdall_icon_homer_logo_iff_image exampleService).1 _ rfl

/-- C3: three independent defaults: a record that omits `label` gets
Heimdall `labels: []`, one that omits `alias-name` gets `aliases: []`,
and one that omits `external` gets `external: false` — each regardless
of the other two keys. -/
theorem heimdall_defaults (service out : Dict)
    (hout : heimdallService service = some out) :
    (dictGet? service "label" = none →
      dictGet? out "labels" = some (Value.list []))
    ∧ (dictGet? service "alias-name" = none →
      dictGet? out "aliases" = some (Value.list []))
    ∧ (dictGet? service "external" = none →
      dictGet? out "external" = some (Value.bool false)) := by
  rw [heimdallService_some_iff] at hout
  obtain ⟨hcUrl, name, description, url, host, category, -, -, -, -, -, -, rfl⟩ := hout
  refine ⟨?_, ?_, ?_⟩
  · intro hl
    have hrl : dictGet? (heimdallRecord service hcUrl name description url host category)
        "labels" = some (dictGetD service "label" (Value.list [])) := rfl
    have el : dictGetD service "label" (Value.list []) = Value.list [] := by
      rw [dictGetD, hl]; rfl
    rw [el] at hrl
    split
    · exact dictGet?_append_of_some _ hrl
    · exact hrl
  · intro ha
    have hra : dictGet? (heimdallRecord service hcUrl name description url host category)
        "aliases" = some (dictGetD service "alias-name" (Value.list [])) := rfl
    have ea : dictGetD service "alias-name" (Value.list []) = Value.list [] := by
      rw [dictGetD, ha]; rfl
    rw [ea] at hra
    split
    · exact dictGet?_append_of_some _ hra
    · exact hra
  · intro he
    have hre : dictGet? (heimdallRecord service hcUrl name description url host category)
        "external" = some (dictGetD service "external" (Value.bool false)) := rfl
    have ee : dictGetD service "external" (Value.bool false) = Value.bool false := by
      rw [dictGetD, he]; rfl
    rw [ee] at hre
    split
    · exact dictGet?_append_of_some _ hre
    · exact hre

theorem heimdall_defaults_witness :
    dictGet? (heimdallRecord exampleService (some "http://wiki.local/health")
      (Value.str "Wiki") (Value.str "Docs") (Value.str "http://wiki.local")
      (Value.str "wiki.local") (Value.str "Tools")) "labels" = some (Value.list [])
    ∧ dictGet? (heimdallRecord exampleService (some "http://wiki.local/health")
      (Value.str "Wiki") (Value.str "Docs") (Value.str "http://wiki.local")
      (Value.str "wiki.local") (Value.str "Tools")) "aliases" = some (Value.list [])
    ∧ dictGet? (heimdallRecord exampleService (some "http://wiki.local/health")
      (Value.str "Wiki") (Value.str "Docs") (Value.str "http://wiki.local")
      (Value.str "wiki.local") (Value.str "Tools")) "external" = some (Value.bool false) :=
  ⟨(heimdall_defaults exampleService _ rfl).1 rfl,
   (heimdall_defaults exampleService _ rfl).2.1 rfl,
   (heimdall_defaults exampleService _ rfl).2.2 rfl⟩

lemma convert_to_homer_config_some_iff {doc cfg : Dict} :
    convert_to_homer_config doc = some cfg ↔
    ∃ xs items, (dictGetD doc "services" (Value.list [])).asList? = some xs
      ∧ to_homer_items xs = some items
      ∧ cfg = [("title", Value.str "My Services"),
               ("subtitle", Value.str "オンプレミスサービス一覧"),
               ("theme", Value.str "default"),
               ("message", Value.str ""),
               ("links", Value.list []),
               ("services", Value.list
                 [Value.map
                   [("name", Value.str "Services"),
                    ("icon", Value.str "fas fa-th"),
                    ("items", Value.list (items.map Value.map))]])] := by
  simp only [convert_to_homer_config, Option.bind_eq_some, Option.some.injEq]
  constructor
  · rintro ⟨xs, h1, items, h2, h3⟩
    exact ⟨xs, items, h1, h2, h3.symm⟩
  · rintro ⟨xs, items, h1, h2, rfl⟩
    exact ⟨xs, h1, items, h2, rfl⟩

lemma homerItem_keys {service item : Dict} (h : homerItem service = some item) :
    hasKey item "name" = true ∧ hasKey item "url" = true
    ∧ dictGet? item "_target" = some (Value.str "self") := by
  rw [homerItem_some_iff] at h
  obtain ⟨name, url, -, -, rfl⟩ := h
  rcases hi : truthy (dictGetD service "image" Value.null) with _ | _ <;>
    rcases hd : truthy (dictGetD service "description" Value.null) with _ | _ <;>
    simp only [hi, hd, Bool.false_eq_true, if_false, if_true] <;>
    exact ⟨rfl, rfl, rfl⟩

lemma homerItem_subtitle {service item : Dict} (h : homerItem service = some item) :
    hasKey item "subtitle" = truthy (dictGetD service "description" Value.null) := by
  rw [homerItem_some_iff] at h
  obtain ⟨name, url, -, -, rfl⟩ := h
  rcases hi : truthy (dictGetD service "image" Value.null) with _ | _ <;>
    rcases hd : truthy (dictGetD service "description" Value.null) with _ | _ <;>
    simp only [hi, hd, Bool.false_eq_true, if_false, if_true] <;> rfl

/-- C5: every produced Homer configuration has the fixed top-level
fields (title `My Services`, the fixed Japanese subtitle, theme
`default`, empty message, empty links), a single group named `Services`
with the fixed icon `fas fa-th` holding all items; every item carries
`name`, `url` and `_target: "self"`, and an item carries `subtitle`
exactly when the record's `description` is truthy. -/
theorem homer_config_shape (doc cfg : Dict)
    (h : convert_to_homer_config doc = some cfg) :
    dictGet? cfg "title" = some (Value.str "My Services")
    ∧ dictGet? cfg "subtitle" = some (Value.str "オンプレミスサービス一覧")
    ∧ dictGet? cfg "theme" = some (Value.str "default")
    ∧ dictGet? cfg "message" = some (Value.str "")
    ∧ dictGet? cfg "links" = some (Value.list [])
    ∧ (∃ items : List Dict,
        dictGet? cfg "services" = some (Value.list
          [Value.map [("name", Value.str "Services"), ("icon", Value.str "fas fa-th"),
            ("items", Value.list (items.map Value.map))]])
        ∧ ∀ item ∈ items,
            hasKey item "name" = true ∧ hasKey item "url" = true
            ∧ dictGet? item "_target" = some (Value.str "self"))
    ∧ (∀ s item : Dict, homerItem s = some item →
        hasKey item "subtitle" = truthy (dictGetD s "description" Value.null)) := by
  rw [convert_to_homer_config_some_iff] at h
  obtain ⟨xs, items, -, hitems, rfl⟩ := h
  refine ⟨rfl, rfl, rfl, rfl, rfl, ⟨items, rfl, ?_⟩, ?_⟩
  · intro item hitem
    obtain ⟨v, hv, hf⟩ := mapOption_mem hitems item hitem
    rw [Option.bind_eq_some] at hf
    obtain ⟨d, hd, hi⟩ := hf
    exact homerItem_keys hi
  · intro s item hi
    exact homerItem_subtitle hi

/-- The Homer configuration produced for `exampleDoc`. -/
def homerExampleCfg : Dict :=
  [("title", Value.str "My Services"),
   ("subtitle", Value.str "オンプレミスサービス一覧"),
   ("theme", Value.str "default"),
   ("message", Value.str ""),
   ("links", Value.list []),
   ("services", Value.list
     [Value.map
       [("name", Value.str "Services"),
        ("icon", Value.str "fas fa-th"),
        ("items", Value.list
          [Value.map
            [("name", Value.str "Wiki"), ("url", Value.str "http://wiki.local"),
             ("subtitle", Value.str "Docs"), ("_target", Value.str "self")]])]])]

theorem homer_config_shape_witness :
    dictGet? homerExampleCfg "title" = some (Value.str "My Services")
    ∧ dictGet? homerExampleCfg "theme" = some (Value.str "default") :=
  ⟨(homer_config_shape exampleDoc homerExampleCfg rfl).1,
   (homer_config_shape exampleDoc homerExampleCfg rfl).2.2.1⟩

/-- C6: when validation is enabled and fails, both `main`s exit with
code 1 and attempt no write (the output path is untouched); and in every
run, at most one write is attempted, always carrying the full converted
document. -/
theorem validation_failure_blocks_write :
    (∀ (validateOnly writeOk : Bool) (doc : Dict),
        heimdallMain false validateOnly false writeOk doc = ⟨some 1, []⟩
      ∧ homerMain false validateOnly false writeOk doc = ⟨some 1, []⟩)
    ∧ (∀ (nv vo vok wok : Bool) (doc : Dict),
        (heimdallMain nv vo vok wok doc).writes = []
        ∨ ∃ cfg, (heimdallMain nv vo vok wok doc).writes = [cfg]
            ∧ convert_to_heimdall_format doc = some cfg)
    ∧ (∀ (nv vo vok wok : Bool) (doc : Dict),
        (homerMain nv vo vok wok doc).writes = []
        ∨ ∃ cfg, (homerMain nv vo vok wok doc).writes = [cfg]
            ∧ convert_to_homer_config doc = some cfg) := by
  refine ⟨?_, ?_, ?_⟩
  · intro vo wok doc
    exact ⟨rfl, rfl⟩
  · intro nv vo vok wok doc
    cases nv <;> cases vo <;> cases vok <;> cases wok <;>
      rcases hc : convert_to_heimdall_format doc with _ | cfg <;>
      simp [heimdallMain, hc]
  · intro nv vo vok wok doc
    cases nv <;> cases vo <;> cases vok <;> cases wok <;>
      rcases hc : convert_to_homer_config doc with _ | cfg <;>
      simp [homerMain, hc]

/-- C7: a `--validate-only` run on a document that passes validation
exits with code 0 and attempts no write, for either converter. -/
theorem validate_only_exits_zero (noValidate writeOk : Bool) (doc : Dict) :
    heimdallMain noValidate true true writeOk doc = ⟨some 0, []⟩
    ∧ homerMain noValidate true true writeOk doc = ⟨some 0, []⟩ := by
  cases noValidate <;> exact ⟨rfl, rfl⟩

end MyServices
